import Mathlib

set_option maxRecDepth 8000

/-!
Verification of the judging core of jd4 (an online-judge worker daemon).

The development shallowly embeds the relevant parts of the source:

* `jd4/util.py` — the time/memory string parsers (`parse_time_ns`,
  `parse_memory_bytes`), including a model of CPython's IEEE-754 binary64
  (double) arithmetic, because the source computes
  `int(float(group1) * UNITS[group2])`.
* `jd4/case.py` — the per-case verdict logic of `CaseBase.judge`, its
  exception handling, the custom-judge runner `CustomJudgeCase.judge`,
  and the descriptor reader `read_yaml_cases`.
* `jd4/compile.py` — `Package.install`.
* `jd4/daemon.py` — the per-submission aggregation loop of
  `JudgeHandler.judge` and the surrounding exception handler of
  `do_record`.

Effectful code is embedded by explicit outcome passing: the I/O-heavy body
of a judge run (sandbox install, FIFO plumbing, process execution, cgroup
accounting, output comparison) is represented by the record of values it
produces, and a Python exception raised inside a `try` body is represented
by an `Except.error` carrying the exception.  Python integers are `Int`
(they are unbounded), byte strings are lists of byte values, and Python
`float`s are modelled as nonnegative binary64 values in mantissa/exponent
form with explicit round-to-nearest-even rounding (every float these
parsers build is nonnegative: the grammars admit no sign).
-/

namespace Jd4

/-- Python exception values that the embedded code can raise or catch.
`formatError` is `jd4.error.FormatError(arg, message)`; `valueError` and
`typeError` are the builtin exception classes; `exception` stands for an
arbitrary exception carrying its text. -/
inductive PyExn where
  | formatError (arg : String) (message : String)
  | valueError (message : String)
  | typeError (message : String)
  | systemError (message : String)
  | exception (message : String)
deriving DecidableEq, Repr

/-- A Python `bytes` value: a list of byte values. -/
abbrev Bytes := List Nat

/-- UTF-8 encoding of one character (the standard 1-to-4 byte scheme). -/
def utf8EncodeChar (c : Char) : List Nat :=
  let n := c.toNat
  if n < 128 then [n]
  else if n < 2048 then [192 + n / 64, 128 + n % 64]
  else if n < 65536 then [224 + n / 4096, 128 + (n / 64) % 64, 128 + n % 64]
  else [240 + n / 262144, 128 + (n / 4096) % 64, 128 + (n / 64) % 64, 128 + n % 64]

/-- Python `s.encode('utf-8')`. -/
def utf8Encode (s : String) : Bytes :=
  (s.data.map utf8EncodeChar).flatten

/-! ## A model of CPython floats (IEEE-754 binary64)

`parse_time_ns` and `parse_memory_bytes` compute
`int(float(group1) * UNITS[group2])`.  CPython `float` is an IEEE-754
binary64 value; `float(string)` is the correctly rounded (nearest, ties to
even) double of the decimal value, and `*` rounds the exact product the
same way.  Every float reaching these expressions is nonnegative, so we
model a double as a mantissa/exponent pair `⟨m, e⟩` of value `m * 2 ^ e`
with `m : ℕ` rounded to 53 significant bits, and rounding as explicit
round-to-nearest-ties-to-even.  The model covers the normal finite range
(no overflow to infinity, no subnormal underflow), which is ample for
every value these parsers see in the claims. -/

/-- Fuel-driven bit length: `bitsF fuel n` is the number of binary digits
of `n` for any `n < 2 ^ fuel`. -/
def bitsF : Nat → Nat → Nat
  | 0, _ => 0
  | fuel + 1, n => if n = 0 then 0 else bitsF fuel (n / 2) + 1

/-- Bit length of a natural number (correct below `2 ^ 300`, ample for every number in this model). -/
def nbits (n : Nat) : Nat := bitsF 300 n

/-- Floor of the base-2 logarithm of the fraction `p / q` (`p, q ≥ 1`). -/
def flog2 (p q : Nat) : ℤ :=
  let k : ℤ := (nbits p : ℤ) - (nbits q : ℤ)
  if 0 ≤ k then (if q * 2 ^ k.toNat ≤ p then k else k - 1)
  else (if q ≤ p * 2 ^ (-k).toNat then k else k - 1)

/-- Round the fraction `p / q` (`q ≥ 1`) to a natural number, nearest,
ties to even. -/
def natDivRHE (p q : Nat) : Nat :=
  let f := p / q
  let r := p % q
  if 2 * r < q then f
  else if q < 2 * r then f + 1
  else if f % 2 = 0 then f else f + 1

/-- A nonnegative binary64 value `m * 2 ^ e`. -/
structure F64 where
  m : Nat
  e : ℤ
deriving DecidableEq, Repr

/-- Round the positive fraction `p / q` to the nearest binary64 value
(53 significant bits, ties to even). -/
def roundFrac (p q : Nat) : F64 :=
  let e : ℤ := flog2 p q - 52
  if 0 ≤ e then ⟨natDivRHE p (q * 2 ^ e.toNat), e⟩
  else ⟨natDivRHE (p * 2 ^ (-e).toNat) q, e⟩

/-- CPython `float(string)` on the decimal numeral of value `n / 10 ^ k`:
the correctly rounded double. -/
def f64ofDec (n k : Nat) : F64 :=
  if n = 0 then ⟨0, 0⟩ else roundFrac n (10 ^ k)

/-- Conversion of a Python `int` to a double (exact below `2 ^ 53`). -/
def f64ofNat (u : Nat) : F64 :=
  if u = 0 then ⟨0, 0⟩ else roundFrac u 1

/-- Binary64 multiplication: round the exact product. -/
def f64mul (x y : F64) : F64 :=
  if x.m * y.m = 0 then ⟨0, 0⟩
  else
    let e := x.e + y.e
    if 0 ≤ e then roundFrac (x.m * y.m * 2 ^ e.toNat) 1
    else roundFrac (x.m * y.m) (2 ^ (-e).toNat)

/-- Python `int()` on a (nonnegative) float: truncation toward zero, which
for nonnegative values is the floor. -/
def F64.toInt (x : F64) : Nat :=
  if 0 ≤ x.e then x.m * 2 ^ x.e.toNat else x.m / 2 ^ (-x.e).toNat

/-- `x` denotes exactly the rational `n / 10 ^ k` (an integer-arithmetic
statement of exact representability). -/
def F64.reprExact (x : F64) (n k : Nat) : Bool :=
  if 0 ≤ x.e then x.m * 2 ^ x.e.toNat * 10 ^ k = n
  else x.m * 10 ^ k = n * 2 ^ (-x.e).toNat

/-! ## jd4/util.py — `parse_time_ns` and `parse_memory_bytes`

`TIME_RE = re.compile(r'([0-9]+(?:\.[0-9]*)?)([mun]?)s?')` used with
`fullmatch`, units `{'': 1e9, 'm': 1e6, 'u': 1e3, 'n': 1}`;
`MEMORY_RE = re.compile(r'([0-9]+(?:\.[0-9]*)?)([kmg]?)b?')` used with
`fullmatch`, units `{'': 1, 'k': 1024, 'm': 1048576, 'g': 1073741824}`.
The matchers below are direct transcriptions of those anchored regexes. -/

/-- The `[0-9]` character class. -/
def isDigit (c : Char) : Bool := '0' ≤ c && c ≤ '9'

/-- Numeric value of a list of decimal digit characters. -/
def natOfDigits (ds : List Char) : Nat :=
  ds.foldl (fun a c => 10 * a + (c.toNat - 48)) 0

/-- The decimal numeral `ip.fp`, recorded as the exact value `n / 10 ^ k`. -/
structure Dec where
  n : Nat
  k : Nat
deriving DecidableEq, Repr

/-- Match the leading group `([0-9]+(?:\.[0-9]*)?)`: on success, return its
exact decimal value and the unconsumed characters. -/
def numMatch (cs : List Char) : Option (Dec × List Char) :=
  let ip := cs.takeWhile isDigit
  let rest := cs.dropWhile isDigit
  if ip.isEmpty then none
  else
    match rest with
    | '.' :: rest2 =>
        let fp := rest2.takeWhile isDigit
        some (⟨natOfDigits (ip ++ fp), fp.length⟩, rest2.dropWhile isDigit)
    | _ => some (⟨natOfDigits ip, 0⟩, rest)

/-- Full match of `TIME_RE` (`([0-9]+(?:\.[0-9]*)?)([mun]?)s?` anchored at
both ends): on success, the decimal value of group 1 and the nanosecond
multiplier `TIME_UNITS[group2]`. -/
def timeMatch (s : String) : Option (Dec × Nat) :=
  match numMatch s.data with
  | none => none
  | some (v, rest) =>
    let mr : Nat × List Char :=
      match rest with
      | 'm' :: r => (1000000, r)
      | 'u' :: r => (1000, r)
      | 'n' :: r => (1, r)
      | r => (1000000000, r)
    match mr.2 with
    | [] => some (v, mr.1)
    | ['s'] => some (v, mr.1)
    | _ => none

/-- Full match of `MEMORY_RE` (`([0-9]+(?:\.[0-9]*)?)([kmg]?)b?` anchored at
both ends): on success, the decimal value of group 1 and the byte
multiplier `MEMORY_UNITS[group2]`. -/
def memoryMatch (s : String) : Option (Dec × Nat) :=
  match numMatch s.data with
  | none => none
  | some (v, rest) =>
    let mr : Nat × List Char :=
      match rest with
      | 'k' :: r => (1024, r)
      | 'm' :: r => (1048576, r)
      | 'g' :: r => (1073741824, r)
      | r => (1, r)
    match mr.2 with
    | [] => some (v, mr.1)
    | ['b'] => some (v, mr.1)
    | _ => none

/-- `jd4.util.parse_time_ns`: on a full match, `int(float(g1) * TIME_UNITS[g2])`
in binary64 arithmetic; otherwise `raise FormatError(time_str, 'error parsing time')`. -/
def parse_time_ns (time_str : String) : Except PyExn ℤ :=
  match timeMatch time_str with
  | none => .error (.formatError time_str "error parsing time")
  | some (v, mult) => .ok ((f64mul (f64ofDec v.n v.k) (f64ofNat mult)).toInt : ℤ)

/-- `jd4.util.parse_memory_bytes`: on a full match,
`int(float(g1) * MEMORY_UNITS[g2])` in binary64 arithmetic; otherwise
`raise FormatError(memory_str, 'error parsing memory')`. -/
def parse_memory_bytes (memory_str : String) : Except PyExn ℤ :=
  match memoryMatch memory_str with
  | none => .error (.formatError memory_str "error parsing memory")
  | some (v, mult) => .ok ((f64mul (f64ofDec v.n v.k) (f64ofNat mult)).toInt : ℤ)

/-! ## jd4/status.py — status constants

Modelled from the spec: `jd4/status.py` is not under src/ (case.py and
daemon.py only import its constants).  The spec fixes the ordering:
"Status ordering places `ACCEPTED` lowest and `SYSTEM_ERROR` highest"
among the case verdicts; the concrete numerals below are chosen
consistently with that ordering.  Statuses are Python ints (the daemon
takes `max` over them), so they are embedded as integers. -/

/-- Modelled from the spec: the lowest case verdict. -/
def STATUS_ACCEPTED : ℤ := 1

/-- Modelled from the spec: a non-lowest, non-highest case verdict. -/
def STATUS_WRONG_ANSWER : ℤ := 2

/-- Modelled from the spec: a non-lowest, non-highest case verdict. -/
def STATUS_TIME_LIMIT_EXCEEDED : ℤ := 3

/-- Modelled from the spec: a non-lowest, non-highest case verdict. -/
def STATUS_MEMORY_LIMIT_EXCEEDED : ℤ := 4

/-- Modelled from the spec: a non-lowest, non-highest case verdict. -/
def STATUS_RUNTIME_ERROR : ℤ := 6

/-- Modelled from the spec: the compile-failure status (not a case verdict). -/
def STATUS_COMPILE_ERROR : ℤ := 7

/-- Modelled from the spec: the highest case verdict. -/
def STATUS_SYSTEM_ERROR : ℤ := 8

/-- Modelled from the spec: transient status reported while judging. -/
def STATUS_JUDGING : ℤ := 20

/-- Modelled from the spec: transient status reported while compiling. -/
def STATUS_COMPILING : ℤ := 21

/-- The statuses `CaseBase.judge` can return (all of them at least
`STATUS_ACCEPTED` and at most `STATUS_SYSTEM_ERROR`). -/
def caseStatuses : List ℤ :=
  [STATUS_ACCEPTED, STATUS_WRONG_ANSWER, STATUS_TIME_LIMIT_EXCEEDED,
   STATUS_MEMORY_LIMIT_EXCEEDED, STATUS_RUNTIME_ERROR, STATUS_SYSTEM_ERROR]

/-! ## jd4/case.py — constants and `CaseBase.judge` -/

/-- `jd4.case.MAX_STDOUT_SIZE`. -/
def MAX_STDOUT_SIZE : Nat := 134217728

/-- `jd4.case.MAX_STDERR_SIZE`. -/
def MAX_STDERR_SIZE : Nat := 8192

/-- `jd4.case.MAX_LOG_SIZE`: snippet cap applied to stdout/stderr. -/
def MAX_LOG_SIZE : Nat := 1024

/-- `jd4.case.DEFAULT_TIME_NS`. -/
def DEFAULT_TIME_NS : ℤ := 1000000000

/-- `jd4.case.DEFAULT_MEMORY_BYTES`. -/
def DEFAULT_MEMORY_BYTES : ℤ := 268435456

/-- `jd4.case.PROCESS_LIMIT`. -/
def PROCESS_LIMIT : ℤ := 64

/-- A Python value that can sit in an `execute_args` slot: `None`, a `str`,
or a `list` of strings.  (`read_yaml_cases` leaves a falsy `execute_args`
descriptor entry unsplit, so a `str` can flow into `CaseBase` and
`Package.install`.) -/
inductive PyArgs where
  | none
  | str (s : String)
  | list (xs : List String)
deriving DecidableEq, Repr

/-- Python truthiness of a `PyArgs` value (`None`, `''` and `[]` are falsy). -/
def pyTruthyArgs : PyArgs → Bool
  | .none => false
  | .str s => !s.isEmpty
  | .list xs => !xs.isEmpty

/-- Python truthiness of an optional string (`None` and `''` are falsy). -/
def pyTruthyOptStr : Option String → Bool
  | Option.none => false
  | some s => !s.isEmpty

/-- `jd4.case.CaseBase.__init__` state (the lazy stream producers of
`DefaultCase` live outside this record; the judge body consumes them only
through the run outcome below). -/
structure CaseBase where
  time_limit_ns : ℤ
  memory_limit_bytes : ℤ
  process_limit : ℤ
  score : ℤ
  execute_file : Option String
  execute_args : PyArgs
  index : Nat
deriving DecidableEq, Repr

/-- Everything the `try` body of `CaseBase.judge` produces when it finishes
without raising: the exit status of `executable.execute`, the captured
stdout/stderr pipes, the `(time_usage_ns, memory_usage_bytes)` report of
`wait_cgroup`, and the verdict of the output comparator
(`compare_stream` of `jd4._compare`, which is not under src/, is
abstracted to its boolean result `correct`). -/
structure RunData where
  execute_status : ℤ
  stdout : Bytes
  stderr : Bytes
  time_usage_ns : ℤ
  memory_usage_bytes : ℤ
  correct : Bool
deriving DecidableEq, Repr

/-- The 8-tuple `CaseBase.judge` returns:
`(status, score, time_usage_ns, memory_usage_bytes, stdout, stderr, answer, execute_status)`. -/
structure CaseResult where
  status : ℤ
  score : ℤ
  time_usage_ns : ℤ
  memory_usage_bytes : ℤ
  stdout : Bytes
  stderr : Bytes
  answer : Bytes
  execute_status : ℤ
deriving DecidableEq, Repr

/-- The verdict chain of `CaseBase.judge` (case.py lines 83-97): the first
matching rule decides `(status, score)`. -/
def verdict (c : CaseBase) (r : RunData) : ℤ × ℤ :=
  if c.memory_limit_bytes ≤ r.memory_usage_bytes then (STATUS_MEMORY_LIMIT_EXCEEDED, 0)
  else if c.time_limit_ns ≤ r.time_usage_ns then (STATUS_TIME_LIMIT_EXCEEDED, 0)
  else if r.execute_status ≠ 0 then (STATUS_RUNTIME_ERROR, 0)
  else if r.correct = false then (STATUS_WRONG_ANSWER, 0)
  else (STATUS_ACCEPTED, c.score)

/-- Return value of `CaseBase.judge` together with whether the sandbox was
returned to the pool (`put_sandbox` in the `finally` block). -/
structure JudgeOutcome where
  result : CaseResult
  sandboxReleased : Bool
deriving DecidableEq, Repr

/-- `jd4.case.CaseBase.judge`.  The `try` body (sandbox install, FIFO
setup, execution, cgroup wait, comparison) is represented by its outcome
`run`: `Except.ok` carries the values it produced, `Except.error` carries
the text of the exception it raised.  `answer` is `self.do_answer`, the
restartable reader of the expected output (read with size `MAX_LOG_SIZE`
after the `finally` block).  On an exception the method still returns,
with `STATUS_SYSTEM_ERROR`, zero score and usages, empty stdout, the
UTF-8-encoded exception text as stderr, and execute status 0; the sandbox
is released on both paths. -/
def CaseBase.judge (c : CaseBase) (run : Except String RunData) (answer : Nat → Bytes) :
    JudgeOutcome :=
  match run with
  | .ok r =>
    let v := verdict c r
    { result :=
      { status := v.1, score := v.2
        time_usage_ns := r.time_usage_ns
        memory_usage_bytes := r.memory_usage_bytes
        stdout := r.stdout.take MAX_LOG_SIZE
        stderr := r.stderr.take MAX_LOG_SIZE
        answer := answer MAX_LOG_SIZE
        execute_status := r.execute_status }
      sandboxReleased := true }
  | .error e =>
    { result :=
      { status := STATUS_SYSTEM_ERROR, score := 0
        time_usage_ns := 0
        memory_usage_bytes := 0
        stdout := ([] : Bytes).take MAX_LOG_SIZE
        stderr := (utf8Encode e).take MAX_LOG_SIZE
        answer := answer MAX_LOG_SIZE
        execute_status := 0 }
      sandboxReleased := true }

/-- Modelled from the spec: `wait_cgroup` (jd4/cgroup.py) is not under
src/.  Per section 4.C of the spec, the resource controller returns
`(time_usage_ns, memory_usage_bytes)` and caps the reported cpu time at
the `cpu_ns` limit: on normal completion a reading above the limit is
returned as the limit, and on a wall-clock kill the limit itself is
returned.  `CaseBase.judge` passes `self.time_limit_ns` as `cpu_ns`, so a
report is possible exactly when its time component is at most the limit. -/
abbrev cgroupReportOk (cpu_ns time_usage_ns : ℤ) : Prop := time_usage_ns ≤ cpu_ns

/-! ## jd4/case.py — `CustomJudgeCase.judge` -/

/-- The argument tuple `(cpu_ns, wall_ns, memory_bytes, process_limit)` of
one `wait_cgroup` invocation. -/
structure CGroupArgs where
  cpu_ns : ℤ
  wall_ns : ℤ
  memory_bytes : ℤ
  process_limit : ℤ
deriving DecidableEq, Repr

/-- `jd4.case.CustomJudgeCase.__init__` state. -/
structure CustomJudgeCase where
  open_input : String
  time_ns : ℤ
  memory_bytes : ℤ
  open_judge : String
  judge_lang : String
deriving DecidableEq, Repr

/-- The two `wait_cgroup` invocations of `CustomJudgeCase.judge`
(case.py lines 223-234): first the user controller, then the judge
controller. -/
def CustomJudgeCase.wait_cgroup_args (c : CustomJudgeCase) : CGroupArgs × CGroupArgs :=
  (⟨c.time_ns, c.time_ns, c.memory_bytes, PROCESS_LIMIT⟩,
   ⟨DEFAULT_TIME_NS, c.time_ns + DEFAULT_TIME_NS, DEFAULT_MEMORY_BYTES, PROCESS_LIMIT⟩)

/-- Everything the custom-judge run produces once both processes have been
awaited (case.py lines 235-240). -/
structure CustomRunData where
  user_execute_status : ℤ
  judge_execute_status : ℤ
  user_stderr : Bytes
  judge_stdout : Bytes
  judge_stderr : Bytes
  user_time_usage_ns : ℤ
  user_memory_usage_bytes : ℤ
  judge_time_usage_ns : ℤ
  judge_memory_usage_bytes : ℤ
deriving DecidableEq, Repr

/-- The 5-tuple `CustomJudgeCase.judge` returns:
`(status, score, user_time_usage_ns, user_memory_usage_bytes, user_stderr)`. -/
structure CustomResult where
  status : ℤ
  score : ℤ
  time_usage_ns : ℤ
  memory_usage_bytes : ℤ
  stderr : Bytes
deriving DecidableEq, Repr

/-- Whitespace bytes for Python `bytes.split()` with no argument. -/
def isWsByte (b : Nat) : Bool :=
  b = 32 || b = 9 || b = 10 || b = 13 || b = 11 || b = 12

/-- Helper of `bytesSplit`: `cur` holds the current token reversed. -/
def bytesSplitAux : Bytes → Bytes → List Bytes
  | [], cur => if cur.isEmpty then [] else [cur.reverse]
  | b :: rest, cur =>
    if isWsByte b then
      if cur.isEmpty then bytesSplitAux rest []
      else cur.reverse :: bytesSplitAux rest []
    else bytesSplitAux rest (b :: cur)

/-- Python `bytes.split()`: split on runs of ASCII whitespace, dropping
empty tokens. -/
def bytesSplit (bs : Bytes) : List Bytes := bytesSplitAux bs []

/-- Python `int()` on a bytes token: an optional sign followed by decimal
digits.  (CPython additionally accepts single underscores between digits;
that corner is not modelled and no claim depends on it.)  `none` is a
`ValueError`. -/
def parseDigitsBytes (ds : Bytes) : Option ℤ :=
  if !ds.isEmpty && ds.all (fun b => 48 ≤ b && b ≤ 57) then
    some ((ds.foldl (fun a b => 10 * a + (b - 48)) 0 : Nat) : ℤ)
  else none

/-- Python `int()` on one token produced by `bytes.split()`. -/
def parseIntToken (bs : Bytes) : Option ℤ :=
  match bs with
  | 43 :: ds => parseDigitsBytes ds
  | 45 :: ds => (parseDigitsBytes ds).map (fun z => -z)
  | ds => parseDigitsBytes ds

/-- `status, score = map(int, judge_stdout.split())`: succeeds exactly when
the split yields two tokens and both parse as integers; any failure is a
`ValueError` (bad literal, or wrong number of values to unpack). -/
def parseJudgeStdout (bs : Bytes) : Option (ℤ × ℤ) :=
  match (bytesSplit bs).mapM parseIntToken with
  | some [a, b] => some (a, b)
  | _ => none

/-- A Python `try ... except SystemError` block: only a `SystemError` is
caught; every other exception propagates. -/
def catchSystemError {α : Type} (body : Except PyExn α) (handler : α) : Except PyExn α :=
  match body with
  | .error (.systemError _) => .ok handler
  | other => other

/-- The verdict part of `CustomJudgeCase.judge` (case.py lines 241-261),
evaluated once both processes have been awaited.  The parse of the judge's
stdout is wrapped in `try ... except SystemError` exactly as in the
source, so its `ValueError` is not caught and the error propagates. -/
def CustomJudgeCase.judgeBody (c : CustomJudgeCase) (r : CustomRunData) :
    Except PyExn CustomResult :=
  if r.judge_execute_status ≠ 0 ∨ DEFAULT_MEMORY_BYTES ≤ r.judge_memory_usage_bytes ∨
      DEFAULT_TIME_NS ≤ r.judge_time_usage_ns then
    .ok ⟨STATUS_SYSTEM_ERROR, 0, r.user_time_usage_ns, r.user_memory_usage_bytes, r.user_stderr⟩
  else if c.memory_bytes ≤ r.user_memory_usage_bytes then
    .ok ⟨STATUS_MEMORY_LIMIT_EXCEEDED, 0, r.user_time_usage_ns, r.user_memory_usage_bytes,
         r.user_stderr⟩
  else if c.time_ns ≤ r.user_time_usage_ns then
    .ok ⟨STATUS_TIME_LIMIT_EXCEEDED, 0, r.user_time_usage_ns, r.user_memory_usage_bytes,
         r.user_stderr⟩
  else if r.user_execute_status ≠ 0 then
    .ok ⟨STATUS_RUNTIME_ERROR, 0, r.user_time_usage_ns, r.user_memory_usage_bytes, r.user_stderr⟩
  else
    (catchSystemError
      (match parseJudgeStdout r.judge_stdout with
       | some p => .ok p
       | none => .error (.valueError "invalid judge stdout"))
      (STATUS_SYSTEM_ERROR, 0)).map
      (fun p => ⟨p.1, p.2, r.user_time_usage_ns, r.user_memory_usage_bytes, r.user_stderr⟩)

/-- Outcome of building the judge program (case.py lines 167-171):
`build` returns `(judge_package, message, _, _)` and a falsy package means
the build failed with `message`. -/
inductive BuildOutcome where
  | built
  | failed (message : String)
deriving DecidableEq, Repr

/-- `jd4.case.CustomJudgeCase.judge`: build the judge program (a failure
returns the 5-tuple `(STATUS_SYSTEM_ERROR, 0, 0, 0, message)` at line 171
before any sandbox is acquired), otherwise run both programs and apply the
verdict chain.  Both sandboxes are released in the `finally` block on
every path, including the uncaught `ValueError`. -/
def CustomJudgeCase.judge (c : CustomJudgeCase) (build : BuildOutcome) (r : CustomRunData) :
    Except PyExn CustomResult :=
  match build with
  | .failed message => .ok ⟨STATUS_SYSTEM_ERROR, 0, 0, 0, utf8Encode message⟩
  | .built => c.judgeBody r

/-! ## jd4/compile.py — `Package.install` -/

/-- `jd4.compile.Package` state: a built artifact with its execute file and
its (shlex-split) execute argv. -/
structure Package where
  package_dir : String
  execute_file : String
  execute_args : List String
deriving DecidableEq, Repr

/-- `jd4.compile.Executable`: the `(execute_file, execute_args)` pair bound
by `Package.install`.  The `execute_args` slot can end up holding a plain
string (see `Package.install`). -/
structure Executable where
  execute_file : String
  execute_args : PyArgs
deriving DecidableEq, Repr

/-- `jd4.compile.Package.install` (compile.py lines 58-74), argument
binding only (the sandbox reset and the copy of the package tree carry no
data relevant to the claims).  With a falsy `execute_file`, the package's
file is used and a truthy `execute_args` is appended to the package's
argv (`self.execute_args + execute_args`, a `TypeError` if the extras are
a string); with a truthy `execute_file` and a falsy `execute_args`, the
argv slot is assigned the `execute_file` string itself. -/
def Package.install (p : Package) (execute_file : Option String) (execute_args : PyArgs) :
    Except PyExn Executable :=
  if pyTruthyOptStr execute_file = false then
    if pyTruthyArgs execute_args then
      match execute_args with
      | .list xs => .ok ⟨p.execute_file, .list (p.execute_args ++ xs)⟩
      | _ => .error (.typeError "can only concatenate list (not str) to list")
    else .ok ⟨p.execute_file, .list p.execute_args⟩
  else if pyTruthyArgs execute_args = false then
    .ok ⟨execute_file.getD "", .str (execute_file.getD "")⟩
  else .ok ⟨execute_file.getD "", execute_args⟩

/-! ## jd4/case.py — `read_yaml_cases` -/

/-- One entry of the `cases` list of a parsed `config.yaml` descriptor.
`Option.none` models an absent key. -/
structure YamlCase where
  input : String
  output : String
  time : String
  memory : String
  score : ℤ
  category : Option String
  execute_file : Option String
  execute_args : Option String
  judge : Option String
deriving DecidableEq, Repr

/-- A case object yielded by `read_yaml_cases`: either a `DefaultCase`
(which carries an `index`) or a `CustomJudgeCase` (whose constructor takes
no index). -/
inductive Case where
  | defaultCase (open_input open_output : String) (time_ns memory_bytes score : ℤ)
      (execute_file : Option String) (execute_args : PyArgs) (index : Nat)
  | customJudgeCase (open_input : String) (time_ns memory_bytes : ℤ)
      (open_judge : String) (judge_lang : String)
deriving DecidableEq, Repr

/-- The `index` attribute of a yielded case, when it has one. -/
def caseIndex : Case → Option Nat
  | .defaultCase _ _ _ _ _ _ _ i => some i
  | .customJudgeCase _ _ _ _ _ => Option.none

/-- Whether a yielded case is a custom-judge case. -/
def Case.isCustomJudge : Case → Bool
  | .defaultCase _ _ _ _ _ _ _ _ => false
  | .customJudgeCase _ _ _ _ _ => true

/-- `category = case.get('category') or 'pretest'`: an absent or empty
category defaults to `"pretest"`. -/
def effectiveCategory (c : YamlCase) : String :=
  match c.category with
  | some s => if s.isEmpty then "pretest" else s
  | Option.none => "pretest"

/-- Construction of the case object yielded for one descriptor entry
(case.py lines 354-376), given the yield-order counter value `index` the
source assigns to the entry.  `split` is `shlex.split` and `ext` maps a
judge file name to `path.splitext(name)[1][1:]`; both are standard-library
functions taken as parameters (no claim depends on their values).
The time and memory parses can raise `FormatError`. -/
def mkYamlCase (split : String → List String) (ext : String → String)
    (c : YamlCase) (index : Nat) : Except PyExn Case :=
  let execute_args : PyArgs :=
    match c.execute_args with
    | Option.none => .none
    | some s => if s.isEmpty then .str s else .list (split s)
  match c.judge with
  | Option.none =>
    match parse_time_ns c.time with
    | .error e => .error e
    | .ok t =>
      match parse_memory_bytes c.memory with
      | .error e => .error e
      | .ok m =>
        .ok (.defaultCase c.input c.output t m c.score c.execute_file execute_args index)
  | some j =>
    match parse_time_ns c.time with
    | .error e => .error e
    | .ok t =>
      match parse_memory_bytes c.memory with
      | .error e => .error e
      | .ok m => .ok (.customJudgeCase c.input t m j (ext j))

/-- The generator loop of `read_yaml_cases` (case.py lines 352-376):
`index` starts at 0, entries whose effective category is not in
`judge_category` are skipped, and `index` is incremented just before each
yield.  Errors raised while materialising a yielded case propagate. -/
def read_yaml_casesAux (split : String → List String) (ext : String → String)
    (judge_category : List String) : List YamlCase → Nat → Except PyExn (List Case)
  | [], _ => .ok []
  | c :: rest, index =>
    if judge_category.contains (effectiveCategory c) then
      match mkYamlCase split ext c (index + 1) with
      | .error e => .error e
      | .ok yc =>
        match read_yaml_casesAux split ext judge_category rest (index + 1) with
        | .error e => .error e
        | .ok others => .ok (yc :: others)
    else read_yaml_casesAux split ext judge_category rest index

/-- `jd4.case.read_yaml_cases`:
`judge_category = judge_category or ['pretest']` (an empty caller list is
replaced by `['pretest']`), then the generator loop. -/
def read_yaml_cases (split : String → List String) (ext : String → String)
    (cases : List YamlCase) (judge_category : List String) : Except PyExn (List Case) :=
  read_yaml_casesAux split ext
    (if judge_category.isEmpty then ["pretest"] else judge_category) cases 0

/-- The filter the claim describes: the entry's effective category belongs
to the caller's category set, an empty caller set standing for
`{"pretest"}`. -/
def passesFilter (judge_category : List String) (c : YamlCase) : Bool :=
  (if judge_category.isEmpty then ["pretest"] else judge_category).contains
    (effectiveCategory c)

/-- Statement-side reformulation (written from the claim's words, to be
compared with `read_yaml_cases`): materialise a list of entries in order,
the `i`-th yielded case (0-based `i`) being built with counter value
`pos + i + 1`. -/
def numberFrom (split : String → List String) (ext : String → String) :
    List YamlCase → Nat → Except PyExn (List Case)
  | [], _ => .ok []
  | c :: rest, pos =>
    match mkYamlCase split ext c (pos + 1) with
    | .error e => .error e
    | .ok yc =>
      match numberFrom split ext rest (pos + 1) with
      | .error e => .error e
      | .ok others => .ok (yc :: others)

/-- Statement-side reformulation of the claim: keep exactly the entries
that pass the category filter and number them 1, 2, … in yield order. -/
def casesSpec (split : String → List String) (ext : String → String)
    (cases : List YamlCase) (judge_category : List String) : Except PyExn (List Case) :=
  numberFrom split ext (cases.filter (passesFilter judge_category)) 0

/-! ## jd4/daemon.py — `JudgeHandler.judge` and `do_record` -/

/-- What awaiting one per-case judge task yields in the loop of
`JudgeHandler.judge` (daemon.py line 141): a default case returns the
8-tuple, a custom-judge case returns its 5-tuple, and a task that raised
re-raises at the `await`. -/
inductive JudgeTaskResult where
  | default8 (r : CaseResult)
  | custom5 (r : CustomResult)
  | raised (e : PyExn)
deriving DecidableEq, Repr

/-- The unpacking
`status, score, time_usage_ns, memory_usage_bytes, stdout, stderr, answer, execute_status = await shield(judge_task)`:
an 8-tuple unpacks, a 5-tuple raises `ValueError`, a raising task
re-raises. -/
def unpack8 : JudgeTaskResult → Except PyExn CaseResult
  | .default8 r => .ok r
  | .custom5 _ => .error (.valueError "not enough values to unpack (expected 8, got 5)")
  | .raised e => .error e

/-- The running totals of the loop of `JudgeHandler.judge`. -/
structure Agg where
  total_status : ℤ
  total_score : ℤ
  total_time_usage_ns : ℤ
  total_memory_usage_bytes : ℤ
deriving DecidableEq, Repr

/-- The final `end` event `{status, score, time_ms, memory_kb}`. -/
structure EndEvent where
  status : ℤ
  score : ℤ
  time_ms : ℤ
  memory_kb : ℤ
deriving DecidableEq, Repr

/-- The `end` event emitted at daemon.py lines 168-171: totals with
`time_ms = total_time_usage_ns // 1000000` and
`memory_kb = total_memory_usage_bytes // 1024` (Python `//` is floor
division). -/
def endOf (a : Agg) : EndEvent :=
  ⟨a.total_status, a.total_score, a.total_time_usage_ns.fdiv 1000000,
   a.total_memory_usage_bytes.fdiv 1024⟩

/-- The case loop of `JudgeHandler.judge` (daemon.py lines 139-171):
unpack each awaited task in submission order, update
`total_status = max(total_status, status)`, `total_score += score`,
`total_time_usage_ns += time_usage_ns`,
`total_memory_usage_bytes = max(total_memory_usage_bytes, memory_usage_bytes)`,
then emit the `end` event; an exception aborts the loop and propagates. -/
def judgeLoopAux : List JudgeTaskResult → Agg → Except PyExn EndEvent
  | [], a => .ok (endOf a)
  | t :: rest, a =>
    match unpack8 t with
    | .error e => .error e
    | .ok r =>
      judgeLoopAux rest
        ⟨max a.total_status r.status, a.total_score + r.score,
         a.total_time_usage_ns + r.time_usage_ns,
         max a.total_memory_usage_bytes r.memory_usage_bytes⟩

/-- `jd4.daemon.JudgeHandler.judge`: the loop started with
`total_status = STATUS_ACCEPTED` and zero totals. -/
def JudgeHandler_judge (tasks : List JudgeTaskResult) : Except PyExn EndEvent :=
  judgeLoopAux tasks ⟨STATUS_ACCEPTED, 0, 0, 0⟩

/-- The exception handler of `jd4.daemon.JudgeHandler.do_record` around the
judging phase (daemon.py lines 80-83): any exception escaping
`JudgeHandler.judge` is answered with a final
`end(status=STATUS_SYSTEM_ERROR, score=0, time_ms=0, memory_kb=0)`. -/
def do_record_end (tasks : List JudgeTaskResult) : EndEvent :=
  match JudgeHandler_judge tasks with
  | .ok e => e
  | .error _ => ⟨STATUS_SYSTEM_ERROR, 0, 0, 0⟩

/-- The run-time inputs a scheduled case task consumes, bundling the data
for either variant: the default-case try-body outcome and answer reader,
and the custom-judge build outcome and run record. -/
structure TaskEnv where
  run : Except String RunData
  answer : Nat → Bytes
  build : BuildOutcome
  crun : CustomRunData

/-- `loop.create_task(case.judge(package))` for one case object: dispatch
to `CaseBase.judge` (a `DefaultCase` is a `CaseBase` with
`process_limit = PROCESS_LIMIT`) or to `CustomJudgeCase.judge`. -/
def Case.runTask (ce : Case) (env : TaskEnv) : JudgeTaskResult :=
  match ce with
  | .defaultCase _ _ t m sc ef ea idx =>
    .default8 (CaseBase.judge ⟨t, m, PROCESS_LIMIT, sc, ef, ea, idx⟩ env.run env.answer).result
  | .customJudgeCase oi t m oj jl =>
    match CustomJudgeCase.judge ⟨oi, t, m, oj, jl⟩ env.build env.crun with
    | .ok res => .custom5 res
    | .error e => .raised e

/-! ## Concrete fixtures used by witnesses and counterexamples -/

/-- A custom-judge case with a 1 s / 256 MiB user budget. -/
def exCustomCase : CustomJudgeCase := ⟨"1.in", 1000000000, 268435456, "judge.py", "py"⟩

/-- A custom-judge run in which both processes exit 0 well within their
limits but the judge prints `ok`, which is not two integers. -/
def exCustomRun : CustomRunData :=
  ⟨0, 0, [], utf8Encode "ok", [], 1000, 1000, 1000, 1000⟩

/-- A custom-judge run in which the judge exhausts its cpu budget while
the user program is fine and the judge printed a valid verdict. -/
def exJudgeTleRun : CustomRunData :=
  ⟨0, 0, [], utf8Encode "1 7", [], 1000, 1000, 1000000000, 1000⟩

/-- A descriptor entry that triggers a custom-judge case. -/
def exJudgeYaml : YamlCase :=
  ⟨"1.in", "1.out", "1s", "1b", 1, Option.none, Option.none, Option.none, some "j.py"⟩

/-- A plain descriptor entry with no category (defaults to pretest). -/
def exYamlA : YamlCase :=
  ⟨"a.in", "a.out", "1s", "1b", 5, Option.none, Option.none, Option.none, Option.none⟩

/-- A descriptor entry in category `extra`. -/
def exYamlB : YamlCase :=
  ⟨"b.in", "b.out", "1s", "1b", 5, some "extra", Option.none, Option.none, Option.none⟩

/-- The default case that `exYamlA` materialises as first yield. -/
def exDefaultCase1 : Case :=
  .defaultCase "a.in" "a.out" 1000000000 1 5 Option.none .none 1

/-- A placeholder `shlex.split` for closed statements (never reached by
them: no fixture has a truthy `execute_args`). -/
def exSplitFn : String → List String := fun _ => []

/-- A placeholder `path.splitext`-extension function for closed statements. -/
def exExtFn : String → String := fun _ => "py"

/-- A run report within limits, correct output. -/
def exOkRun : RunData := ⟨0, [49, 50], [], 500, 500, true⟩

/-- A default-judge case base: 1000 ns / 1000 bytes budget, score 10. -/
def exCaseBase : CaseBase := ⟨1000, 1000, 64, 10, Option.none, .none, 1⟩

/-- An answer reader returning a fixed small answer. -/
def exAnswer : Nat → Bytes := fun _ => [51]

/-- An accepted 8-field case result with 3 ms and 2048 bytes of usage. -/
def exResultA : CaseResult := ⟨STATUS_ACCEPTED, 7, 3000000, 2048, [], [], [], 0⟩

/-- A wrong-answer 8-field case result with 1 ms and 4096 bytes of usage. -/
def exResultB : CaseResult := ⟨STATUS_WRONG_ANSWER, 0, 1500000, 4096, [], [], [], 0⟩

/-- A built package with one baked-in argv entry. -/
def exPackage : Package := ⟨"/tmp/pkg", "/bin/prog", ["arg0"]⟩

/-- A task environment whose default-case run is `exOkRun` and whose
custom-judge run is `exCustomRun` after a successful judge build. -/
def exTaskEnv : TaskEnv := ⟨.ok exOkRun, exAnswer, .built, exCustomRun⟩

deriving instance DecidableEq for Except

/-! ## Theorems -/

/-- Cross-multiplication rule for natural division: fractions with equal
values have equal floors. -/
theorem natDiv_congr (a b c d : Nat) (hb : 0 < b) (hd : 0 < d)
    (h : a * d = c * b) : a / b = c / d := by
  have h1 : a / b = a * d / (b * d) := (Nat.mul_div_mul_right a b hd).symm
  have h2 : c / d = c * b / (d * b) := (Nat.mul_div_mul_right c d hb).symm
  rw [h1, h2, h, Nat.mul_comm b d]

/-- A float that denotes exactly `n / 10 ^ k` truncates to the floor of
`n / 10 ^ k`. -/
theorem F64.toInt_of_reprExact (x : F64) (n k : Nat) (h : x.reprExact n k = true) :
    x.toInt = n / 10 ^ k := by
  unfold F64.reprExact at h
  unfold F64.toInt
  by_cases he : 0 ≤ x.e
  · rw [if_pos he] at h ⊢
    have h' : x.m * 2 ^ x.e.toNat * 10 ^ k = n := by simpa using h
    have : n / 10 ^ k = x.m * 2 ^ x.e.toNat := by
      rw [← h']
      exact Nat.mul_div_cancel _ (Nat.pos_pow_of_pos k (by norm_num))
    omega
  · rw [if_neg he] at h ⊢
    have h' : x.m * 10 ^ k = n * 2 ^ (-x.e).toNat := by simpa using h
    exact natDiv_congr _ _ _ _ (Nat.pos_pow_of_pos _ (by norm_num))
      (Nat.pos_pow_of_pos _ (by norm_num)) h'

/-- C1: For every default case judged by `CaseBase.judge` whose judging
body completes normally, the verdict is decided by the first matching rule
of the ordered chain: memory at limit → `MEMORY_LIMIT_EXCEEDED`, else time
at limit → `TIME_LIMIT_EXCEEDED`, else non-zero execute status →
`RUNTIME_ERROR`, else comparator mismatch → `WRONG_ANSWER`, else
`ACCEPTED` with the case's score; every non-`ACCEPTED` branch returns
score 0. -/
theorem C1_default_verdict_chain (c : CaseBase) (r : RunData) (ans : Nat → Bytes) :
    ((CaseBase.judge c (Except.ok r) ans).result.status = STATUS_MEMORY_LIMIT_EXCEEDED ↔
        c.memory_limit_bytes ≤ r.memory_usage_bytes) ∧
    ((CaseBase.judge c (Except.ok r) ans).result.status = STATUS_TIME_LIMIT_EXCEEDED ↔
        (r.memory_usage_bytes < c.memory_limit_bytes ∧ c.time_limit_ns ≤ r.time_usage_ns)) ∧
    ((CaseBase.judge c (Except.ok r) ans).result.status = STATUS_RUNTIME_ERROR ↔
        (r.memory_usage_bytes < c.memory_limit_bytes ∧ r.time_usage_ns < c.time_limit_ns ∧
         r.execute_status ≠ 0)) ∧
    ((CaseBase.judge c (Except.ok r) ans).result.status = STATUS_WRONG_ANSWER ↔
        (r.memory_usage_bytes < c.memory_limit_bytes ∧ r.time_usage_ns < c.time_limit_ns ∧
         r.execute_status = 0 ∧ r.correct = false)) ∧
    ((CaseBase.judge c (Except.ok r) ans).result.status = STATUS_ACCEPTED ↔
        (r.memory_usage_bytes < c.memory_limit_bytes ∧ r.time_usage_ns < c.time_limit_ns ∧
         r.execute_status = 0 ∧ r.correct = true)) ∧
    ((CaseBase.judge c (Except.ok r) ans).result.status = STATUS_ACCEPTED →
        (CaseBase.judge c (Except.ok r) ans).result.score = c.score) ∧
    ((CaseBase.judge c (Except.ok r) ans).result.status ≠ STATUS_ACCEPTED →
        (CaseBase.judge c (Except.ok r) ans).result.score = 0) := by
  have hs : (CaseBase.judge c (Except.ok r) ans).result.status = (verdict c r).1 := rfl
  have hsc : (CaseBase.judge c (Except.ok r) ans).result.score = (verdict c r).2 := rfl
  rw [hs, hsc]
  unfold verdict
  unfold STATUS_ACCEPTED STATUS_WRONG_ANSWER STATUS_TIME_LIMIT_EXCEEDED
    STATUS_MEMORY_LIMIT_EXCEEDED STATUS_RUNTIME_ERROR
  split_ifs with hm ht he hc <;> simp_all

/-- Witness for C1 at a concrete accepted run. -/
theorem C1_default_verdict_chain_witness :
    (CaseBase.judge exCaseBase (Except.ok exOkRun) exAnswer).result.status = STATUS_ACCEPTED ∧
    (CaseBase.judge exCaseBase (Except.ok exOkRun) exAnswer).result.score = 10 := by
  have h := C1_default_verdict_chain exCaseBase exOkRun exAnswer
  have hacc : (CaseBase.judge exCaseBase (Except.ok exOkRun) exAnswer).result.status =
      STATUS_ACCEPTED := (h.2.2.2.2.1).mpr (by decide)
  refine ⟨hacc, ?_⟩
  have := h.2.2.2.2.2.1 hacc
  simpa using this

/-- C3: For every case judged by `CaseBase.judge`, the returned
`time_usage_ns` is at most `time_limit_ns`, or the status is
`TIME_LIMIT_EXCEEDED`.  The usage report obeys the controller contract
(`cgroupReportOk`; `CaseBase.judge` passes `self.time_limit_ns` as the
cpu limit), and per the spec's data-model invariant the limit is
nonnegative, which also covers the exception path (usage 0). -/
theorem C3_time_within_limit_or_tle (c : CaseBase) (run : Except String RunData)
    (ans : Nat → Bytes) (hlim : 0 ≤ c.time_limit_ns)
    (hreport : ∀ r, run = Except.ok r → cgroupReportOk c.time_limit_ns r.time_usage_ns) :
    (CaseBase.judge c run ans).result.time_usage_ns ≤ c.time_limit_ns ∨
    (CaseBase.judge c run ans).result.status = STATUS_TIME_LIMIT_EXCEEDED := by
  cases run with
  | ok r => exact Or.inl (hreport r rfl)
  | error e => exact Or.inl hlim

/-- Witness for C3 at a run that reaches both limits at once. -/
theorem C3_time_within_limit_or_tle_witness :
    (CaseBase.judge exCaseBase (Except.ok ⟨0, [], [], 1000, 1000, true⟩) exAnswer).result.time_usage_ns ≤
      exCaseBase.time_limit_ns ∨
    (CaseBase.judge exCaseBase (Except.ok ⟨0, [], [], 1000, 1000, true⟩) exAnswer).result.status =
      STATUS_TIME_LIMIT_EXCEEDED :=
  C3_time_within_limit_or_tle exCaseBase (Except.ok ⟨0, [], [], 1000, 1000, true⟩) exAnswer
    (by decide) (by intro r hr; cases hr; exact by decide)

/-- C4 (code bug): with both processes finishing cleanly inside their
limits and the judge printing `ok`, the parse of the judge stdout fails
with a `ValueError`, which the source's `except SystemError` clause cannot
catch, so `CustomJudgeCase.judge` propagates an error instead of returning
`(STATUS_SYSTEM_ERROR, 0, …)` as the spec states. -/
theorem C4_unparseable_judge_output_propagates :
    parseJudgeStdout (utf8Encode "ok") = Option.none ∧
    CustomJudgeCase.judgeBody exCustomCase exCustomRun =
      Except.error (PyExn.valueError "invalid judge stdout") ∧
    CustomJudgeCase.judgeBody exCustomCase exCustomRun ≠
      Except.ok ⟨STATUS_SYSTEM_ERROR, 0, 1000, 1000, []⟩ := by
  refine ⟨by decide, by decide, by decide⟩

/-- C5: an exception inside the judging body of `CaseBase.judge` still
produces a normal return: `STATUS_SYSTEM_ERROR`, score 0, zero usages,
empty stdout, the UTF-8-encoded exception text (capped at `MAX_LOG_SIZE`)
as the stderr snippet, execute status 0; and the sandbox is released on
every exit path. -/
theorem C5_exception_path (c : CaseBase) (msg : String) (ans : Nat → Bytes) :
    CaseBase.judge c (Except.error msg) ans =
      ⟨⟨STATUS_SYSTEM_ERROR, 0, 0, 0, [], (utf8Encode msg).take MAX_LOG_SIZE,
        ans MAX_LOG_SIZE, 0⟩, true⟩ ∧
    ∀ run : Except String RunData, (CaseBase.judge c run ans).sandboxReleased = true := by
  refine ⟨rfl, ?_⟩
  intro run
  cases run <;> rfl

/-- C8: the user controller runs under the case's time limit (as both cpu
and wall limit), the case's memory limit and process limit 64; the judge
controller runs under 1 s of cpu, the case's time limit plus 1 s of wall
clock, 256 MiB and process limit 64; and a judge malfunction (non-zero
exit, memory at its cap, or cpu at its cap) yields `STATUS_SYSTEM_ERROR`
with score 0 before any user-program status is considered. -/
theorem C8_custom_judge_controllers (c : CustomJudgeCase) (r : CustomRunData)
    (hmal : r.judge_execute_status ≠ 0 ∨ DEFAULT_MEMORY_BYTES ≤ r.judge_memory_usage_bytes ∨
        DEFAULT_TIME_NS ≤ r.judge_time_usage_ns) :
    c.wait_cgroup_args =
      (⟨c.time_ns, c.time_ns, c.memory_bytes, 64⟩,
       ⟨1000000000, c.time_ns + 1000000000, 268435456, 64⟩) ∧
    c.judgeBody r =
      Except.ok ⟨STATUS_SYSTEM_ERROR, 0, r.user_time_usage_ns, r.user_memory_usage_bytes,
        r.user_stderr⟩ := by
  refine ⟨rfl, ?_⟩
  unfold CustomJudgeCase.judgeBody
  rw [if_pos hmal]

/-- Witness for C8: the judge burned its whole cpu budget, so the case is
a system error even though both exits are clean and the judge printed a
valid verdict. -/
theorem C8_custom_judge_controllers_witness :
    CustomJudgeCase.judgeBody exCustomCase exJudgeTleRun =
      Except.ok ⟨STATUS_SYSTEM_ERROR, 0, 1000, 1000, []⟩ :=
  (C8_custom_judge_controllers exCustomCase exJudgeTleRun (by decide)).2

/-- C9: with no per-case `execute_file` override, `Package.install` binds
the package's execute file and appends any supplied extra `execute_args`
to the package's argv; with an override but no `execute_args`, the
`execute_args` slot is assigned the override string itself, not a list. -/
theorem C9_install_binding (p : Package) :
    (∀ xs : List String,
      p.install Option.none (.list xs) = .ok ⟨p.execute_file, .list (p.execute_args ++ xs)⟩) ∧
    p.install Option.none .none = .ok ⟨p.execute_file, .list p.execute_args⟩ ∧
    (∀ f : String, pyTruthyOptStr (some f) = true → ∀ ea : PyArgs, pyTruthyArgs ea = false →
      p.install (some f) ea = .ok ⟨f, .str f⟩) := by
  refine ⟨?_, rfl, ?_⟩
  · intro xs
    cases xs with
    | nil => simp [Package.install, pyTruthyOptStr, pyTruthyArgs]
    | cons x xs => simp [Package.install, pyTruthyOptStr, pyTruthyArgs]
  · intro f hf ea hea
    unfold Package.install
    rw [hf]
    simp [hea]

/-- Witness for C9 at a concrete package. -/
theorem C9_install_binding_witness :
    exPackage.install Option.none (.list ["-O2"]) =
      Except.ok ⟨"/bin/prog", .list ["arg0", "-O2"]⟩ ∧
    exPackage.install (some "run.sh") .none = Except.ok ⟨"run.sh", .str "run.sh"⟩ :=
  ⟨(C9_install_binding exPackage).1 ["-O2"],
   (C9_install_binding exPackage).2.2 "run.sh" (by decide) .none (by decide)⟩

/-- Counterexample for C6: `"1.001us"` matches the duration grammar with
number `1.001` (that is, `1001 / 10 ^ 3`) and unit multiplier `1000`, and
its number times its multiplier is exactly `1001`; but the source's
double-precision computation returns `1000`. -/
theorem C6_counterexample :
    timeMatch "1.001us" = some (⟨1001, 3⟩, 1000) ∧
    (10 : ℤ) ^ 3 ∣ 1001 * 1000 ∧ ((1001 * 1000 : ℤ) / 10 ^ 3 = 1001) ∧
    parse_time_ns "1.001us" = Except.ok 1000 ∧
    (1000 : ℤ) ≠ 1001 := by
  refine ⟨by decide, by decide, by decide, by decide, by decide⟩

/-- C6 (amended): the parsers implement exactly the spec grammars, every
non-matching string raises a format error, and a matching string maps to
`int(float(number) * unit)` computed in binary64 arithmetic; whenever the
number and the number-times-unit product are exactly representable
doubles, that value is the truncation of number times unit — in
particular `parse_time_ns "1.5ms" = 1500000` and
`parse_memory_bytes "2g" = 2147483648` — but not in general (see the
counterexample). -/
theorem C6_amended_parsing :
    (∀ s : String, timeMatch s = Option.none →
      parse_time_ns s = .error (.formatError s "error parsing time")) ∧
    (∀ s : String, memoryMatch s = Option.none →
      parse_memory_bytes s = .error (.formatError s "error parsing memory")) ∧
    (∀ (s : String) (d : Dec) (u : Nat), timeMatch s = some (d, u) →
      (f64ofDec d.n d.k).reprExact d.n d.k = true →
      (f64mul (f64ofDec d.n d.k) (f64ofNat u)).reprExact (d.n * u) d.k = true →
      parse_time_ns s = .ok ((d.n * u / 10 ^ d.k : Nat) : ℤ)) ∧
    (∀ (s : String) (d : Dec) (u : Nat), memoryMatch s = some (d, u) →
      (f64ofDec d.n d.k).reprExact d.n d.k = true →
      (f64mul (f64ofDec d.n d.k) (f64ofNat u)).reprExact (d.n * u) d.k = true →
      parse_memory_bytes s = .ok ((d.n * u / 10 ^ d.k : Nat) : ℤ)) ∧
    parse_time_ns "1.5ms" = Except.ok 1500000 ∧
    parse_memory_bytes "2g" = Except.ok 2147483648 := by
  refine ⟨?_, ?_, ?_, ?_, by decide, by decide⟩
  · intro s h
    unfold parse_time_ns
    rw [h]
  · intro s h
    unfold parse_memory_bytes
    rw [h]
  · intro s d u h _ hprod
    unfold parse_time_ns
    rw [h]
    show Except.ok ((f64mul (f64ofDec d.n d.k) (f64ofNat u)).toInt : ℤ) = _
    rw [F64.toInt_of_reprExact _ _ _ hprod]
  · intro s d u h _ hprod
    unfold parse_memory_bytes
    rw [h]
    show Except.ok ((f64mul (f64ofDec d.n d.k) (f64ofNat u)).toInt : ℤ) = _
    rw [F64.toInt_of_reprExact _ _ _ hprod]

/-- Witness for the amended C6 at `"1.5ms"`: number `1.5 = 15 / 10`, unit
`10 ^ 6`, both roundings exact, value `1500000`. -/
theorem C6_amended_parsing_witness :
    parse_time_ns "1.5ms" = Except.ok ((15 * 1000000 / 10 ^ 1 : Nat) : ℤ) ∧
    (15 * 1000000 / 10 ^ 1 : Nat) = 1500000 :=
  ⟨C6_amended_parsing.2.2.1 "1.5ms" ⟨15, 1⟩ 1000000 (by decide) (by decide) (by decide),
   by decide⟩

/-- Helper for C7: the generator loop equals filter-then-number. -/
theorem read_yaml_casesAux_eq_numberFrom (split : String → List String)
    (ext : String → String) (jc : List String) :
    ∀ (cases : List YamlCase) (idx : Nat),
      read_yaml_casesAux split ext jc cases idx =
        numberFrom split ext (cases.filter (fun c => jc.contains (effectiveCategory c))) idx := by
  intro cases
  induction cases with
  | nil => intro idx; rfl
  | cons c rest ih =>
    intro idx
    by_cases hc : jc.contains (effectiveCategory c) = true
    · simp only [read_yaml_casesAux, List.filter_cons, hc, if_true, if_pos, numberFrom, ih]
    · have hc' : jc.contains (effectiveCategory c) = false := by simpa using hc
      simp only [read_yaml_casesAux, List.filter_cons, hc', Bool.false_eq_true, if_false,
        ite_false]
      exact ih idx

/-- Helper for C7: every case produced by `numberFrom` starting at
position `pos` carries, when it has one, the index `pos + i + 1` at
0-based offset `i`. -/
theorem numberFrom_caseIndex (split : String → List String) (ext : String → String) :
    ∀ (l : List YamlCase) (pos : Nat) (res : List Case),
      numberFrom split ext l pos = .ok res →
      ∀ (i : Nat) (h : i < res.length),
        caseIndex (res.get ⟨i, h⟩) = Option.none ∨
        caseIndex (res.get ⟨i, h⟩) = some (pos + i + 1) := by
  intro l
  induction l with
  | nil =>
    intro pos res hres i h
    cases hres
    simp at h
  | cons c rest ih =>
    intro pos res hres i h
    unfold numberFrom at hres
    cases hmk : mkYamlCase split ext c (pos + 1) with
    | error e => rw [hmk] at hres; cases hres
    | ok yc =>
      rw [hmk] at hres
      cases hrest : numberFrom split ext rest (pos + 1) with
      | error e => rw [hrest] at hres; cases hres
      | ok others =>
        rw [hrest] at hres
        cases hres
        cases i with
        | zero =>
          unfold mkYamlCase at hmk
          cases hj : c.judge with
          | none =>
            simp only [hj] at hmk
            cases hpt : parse_time_ns c.time with
            | error e => simp only [hpt] at hmk; cases hmk
            | ok t =>
              simp only [hpt] at hmk
              cases hpm : parse_memory_bytes c.memory with
              | error e => simp only [hpm] at hmk; cases hmk
              | ok m =>
                simp only [hpm, Except.ok.injEq] at hmk
                subst hmk
                right
                simp [caseIndex]
          | some j =>
            simp only [hj] at hmk
            cases hpt : parse_time_ns c.time with
            | error e => simp only [hpt] at hmk; cases hmk
            | ok t =>
              simp only [hpt] at hmk
              cases hpm : parse_memory_bytes c.memory with
              | error e => simp only [hpm] at hmk; cases hmk
              | ok m =>
                simp only [hpm, Except.ok.injEq] at hmk
                subst hmk
                left
                simp [caseIndex]
        | succ i' =>
          have h' : i' < others.length := by
            simpa using Nat.lt_of_succ_lt_succ h
          have := ih (pos + 1) others hrest i' h'
          simpa [Nat.add_assoc, Nat.add_comm, Nat.add_left_comm] using this

/-- C7 (amended): `read_yaml_cases` yields exactly the descriptor cases
whose category (defaulting to `"pretest"` when absent or empty) belongs to
the caller's category set (an empty caller set standing for
`{"pretest"}`), in order, the `i`-th yielded case (1-based, counting every
yielded case) being built with counter value `i`; so every yielded default
case is assigned index equal to its 1-based position in yield order, while
yielded custom-judge cases are constructed without any index. -/
theorem C7_amended_filter_and_index (split : String → List String) (ext : String → String)
    (cases : List YamlCase) (judge_category : List String) :
    read_yaml_cases split ext cases judge_category =
      casesSpec split ext cases judge_category ∧
    (∀ res : List Case, read_yaml_cases split ext cases judge_category = .ok res →
      ∀ (i : Nat) (h : i < res.length),
        caseIndex (res.get ⟨i, h⟩) = Option.none ∨
        caseIndex (res.get ⟨i, h⟩) = some (i + 1)) := by
  have heq : read_yaml_cases split ext cases judge_category =
      casesSpec split ext cases judge_category := by
    unfold read_yaml_cases casesSpec passesFilter
    exact read_yaml_casesAux_eq_numberFrom split ext _ cases 0
  refine ⟨heq, ?_⟩
  intro res hres i h
  rw [heq] at hres
  have := numberFrom_caseIndex split ext _ 0 res hres i h
  simpa using this

/-- Counterexample for C7: a descriptor list whose single (pretest) case
is a custom-judge case is yielded, but the yielded case is constructed
without any index, so it is not assigned index 1. -/
theorem C7_counterexample :
    read_yaml_cases exSplitFn exExtFn [exJudgeYaml] [] =
      Except.ok [Case.customJudgeCase "1.in" 1000000000 1 "j.py" "py"] ∧
    caseIndex (Case.customJudgeCase "1.in" 1000000000 1 "j.py" "py") = Option.none ∧
    (Option.none : Option Nat) ≠ some 1 := by
  refine ⟨by decide, rfl, by decide⟩

/-- Witness for the amended C7: a single plain pretest case is yielded
with index 1 under an empty caller category set. -/
theorem C7_amended_filter_and_index_witness :
    read_yaml_cases exSplitFn exExtFn [exYamlA] [] = Except.ok [exDefaultCase1] ∧
    caseIndex ([exDefaultCase1].get ⟨0, by decide⟩) = some 1 := by
  have hres : read_yaml_cases exSplitFn exExtFn [exYamlA] [] = Except.ok [exDefaultCase1] := by
    decide
  refine ⟨hres, ?_⟩
  have h := (C7_amended_filter_and_index exSplitFn exExtFn [exYamlA] []).2
    [exDefaultCase1] hres 0 (by decide)
  rcases h with h | h
  · exact absurd h (by decide)
  · exact h

/-- `foldl max` never drops below its seed. -/
theorem foldlMax_le_self : ∀ (l : List ℤ) (a : ℤ), a ≤ l.foldl max a := by
  intro l
  induction l with
  | nil => intro a; exact le_refl a
  | cons x xs ih =>
    intro a
    exact le_trans (le_max_left a x) (ih (max a x))

/-- `foldl max` dominates every member. -/
theorem foldlMax_le_of_mem : ∀ (l : List ℤ) (a x : ℤ), x ∈ l → x ≤ l.foldl max a := by
  intro l
  induction l with
  | nil => intro a x hx; cases hx
  | cons y ys ih =>
    intro a x hx
    cases hx with
    | head => exact le_trans (le_max_right a y) (foldlMax_le_self ys (max a y))
    | tail _ hmem => exact ih (max a y) x hmem

/-- `foldl max` is the seed or one of the members. -/
theorem foldlMax_mem_or_eq : ∀ (l : List ℤ) (a : ℤ), l.foldl max a = a ∨ l.foldl max a ∈ l := by
  intro l
  induction l with
  | nil => intro a; exact Or.inl rfl
  | cons x xs ih =>
    intro a
    cases ih (max a x) with
    | inl h =>
      cases max_choice a x with
      | inl ha => exact Or.inl (by rw [List.foldl_cons, h, ha])
      | inr hx => exact Or.inr (by rw [List.foldl_cons, h, hx]; exact List.mem_cons_self x xs)
    | inr h => exact Or.inr (List.mem_cons_of_mem x h)

/-- `foldl (+)` is the seed plus the sum. -/
theorem foldlAdd_eq : ∀ (l : List ℤ) (a : ℤ), l.foldl (fun x y => x + y) a = a + l.sum := by
  intro l
  induction l with
  | nil => intro a; simp
  | cons x xs ih =>
    intro a
    rw [List.foldl_cons, ih (a + x), List.sum_cons, add_assoc]

/-- The loop of `JudgeHandler.judge` over 8-field results succeeds and
computes componentwise folds of the totals. -/
theorem judgeLoopAux_map_default8 :
    ∀ (l : List CaseResult) (a : Agg),
      judgeLoopAux (l.map .default8) a = .ok (endOf
        ⟨(l.map (fun r => r.status)).foldl max a.total_status,
         (l.map (fun r => r.score)).foldl (fun x y => x + y) a.total_score,
         (l.map (fun r => r.time_usage_ns)).foldl (fun x y => x + y) a.total_time_usage_ns,
         (l.map (fun r => r.memory_usage_bytes)).foldl max a.total_memory_usage_bytes⟩) := by
  intro l
  induction l with
  | nil => intro a; rfl
  | cons r rest ih =>
    intro a
    simp only [List.map_cons, judgeLoopAux, unpack8, List.foldl_cons]
    exact ih ⟨max a.total_status r.status, a.total_score + r.score,
      a.total_time_usage_ns + r.time_usage_ns,
      max a.total_memory_usage_bytes r.memory_usage_bytes⟩

/-- Every case verdict is at least `STATUS_ACCEPTED`. -/
theorem caseStatuses_ge_accepted : ∀ s ∈ caseStatuses, STATUS_ACCEPTED ≤ s := by decide

/-- C2: for a submission with a non-empty case list (of 8-field results),
the final `end` event carries the maximum of the per-case statuses (under
the ordering with `ACCEPTED` lowest), the sum of the scores, the floor of
the summed time usage over 1 000 000 as milliseconds, and the floor of the
maximal memory usage over 1024 as KiB. -/
theorem C2_aggregate_end_event (results : List CaseResult) (hne : results ≠ [])
    (hval : ∀ r ∈ results, r.status ∈ caseStatuses)
    (hmem : ∀ r ∈ results, 0 ≤ r.memory_usage_bytes) :
    ∃ e, JudgeHandler_judge (results.map .default8) = Except.ok e ∧
      e.status ∈ results.map (fun r : CaseResult => r.status) ∧
      (∀ s ∈ results.map (fun r : CaseResult => r.status), s ≤ e.status) ∧
      e.score = (results.map (fun r : CaseResult => r.score)).sum ∧
      e.time_ms = ((results.map (fun r : CaseResult => r.time_usage_ns)).sum).fdiv 1000000 ∧
      ∃ M, M ∈ results.map (fun r : CaseResult => r.memory_usage_bytes) ∧
        (∀ b ∈ results.map (fun r : CaseResult => r.memory_usage_bytes), b ≤ M) ∧
        e.memory_kb = M.fdiv 1024 := by
  obtain ⟨r0, rest, rfl⟩ : ∃ r0 rest, results = r0 :: rest := by
    cases results with
    | nil => exact absurd rfl hne
    | cons a b => exact ⟨a, b, rfl⟩
  refine ⟨_, judgeLoopAux_map_default8 (r0 :: rest) ⟨STATUS_ACCEPTED, 0, 0, 0⟩, ?_, ?_, ?_, ?_, ?_⟩
  · cases foldlMax_mem_or_eq ((r0 :: rest).map (fun r : CaseResult => r.status))
        STATUS_ACCEPTED with
    | inl h =>
      have h0 : r0.status ∈ (r0 :: rest).map (fun r : CaseResult => r.status) := by simp
      have hle : r0.status ≤ STATUS_ACCEPTED := h ▸ foldlMax_le_of_mem _ _ _ h0
      have hge : STATUS_ACCEPTED ≤ r0.status :=
        caseStatuses_ge_accepted _ (hval r0 (List.mem_cons_self r0 rest))
      have : r0.status = STATUS_ACCEPTED := le_antisymm hle hge
      show ((r0 :: rest).map (fun r : CaseResult => r.status)).foldl max STATUS_ACCEPTED ∈ _
      rw [h, ← this]
      exact h0
    | inr h => exact h
  · intro s hs
    exact foldlMax_le_of_mem _ _ _ hs
  · show ((r0 :: rest).map (fun r : CaseResult => r.score)).foldl (fun x y => x + y) 0 = _
    rw [foldlAdd_eq, zero_add]
  · show (((r0 :: rest).map (fun r : CaseResult => r.time_usage_ns)).foldl
        (fun x y => x + y) 0).fdiv 1000000 = _
    rw [foldlAdd_eq, zero_add]
  · refine ⟨((r0 :: rest).map (fun r : CaseResult => r.memory_usage_bytes)).foldl max 0,
      ?_, ?_, rfl⟩
    · cases foldlMax_mem_or_eq
          ((r0 :: rest).map (fun r : CaseResult => r.memory_usage_bytes)) 0 with
      | inl h =>
        have h0 : r0.memory_usage_bytes ∈
            (r0 :: rest).map (fun r : CaseResult => r.memory_usage_bytes) := by
          simp
        have hle : r0.memory_usage_bytes ≤ 0 := h ▸ foldlMax_le_of_mem _ _ _ h0
        have hge : 0 ≤ r0.memory_usage_bytes := hmem r0 (List.mem_cons_self r0 rest)
        have : r0.memory_usage_bytes = 0 := le_antisymm hle hge
        rw [h, ← this]
        exact h0
      | inr h => exact h
    · intro b hb
      exact foldlMax_le_of_mem _ _ _ hb

/-- Witness for C2 at two concrete results: end event
`{status = WRONG_ANSWER, score = 7, time_ms = 4, memory_kb = 4}`. -/
theorem C2_aggregate_end_event_witness :
    ∃ e, JudgeHandler_judge ([exResultA, exResultB].map JudgeTaskResult.default8) =
        Except.ok e ∧
      e.score = 7 ∧ e.status ∈ [exResultA, exResultB].map (fun r : CaseResult => r.status) := by
  obtain ⟨e, he, hmem', _, hscore, _, _⟩ :=
    C2_aggregate_end_event [exResultA, exResultB] (by decide) (by decide) (by decide)
  refine ⟨e, he, ?_, hmem'⟩
  rw [hscore]
  decide

/-- A task whose unpacking (or awaiting) raises aborts the loop with an
error. -/
theorem judgeLoopAux_error_of_mem :
    ∀ (l : List JudgeTaskResult) (a : Agg),
      (∃ t ∈ l, ∃ e, unpack8 t = .error e) → ∃ e, judgeLoopAux l a = .error e := by
  intro l
  induction l with
  | nil =>
    intro a h
    obtain ⟨t, ht, _⟩ := h
    cases ht
  | cons t ts ih =>
    intro a h
    cases hu : unpack8 t with
    | error e => exact ⟨e, by simp [judgeLoopAux, hu]⟩
    | ok r =>
      obtain ⟨t0, ht0, e0, he0⟩ := h
      cases ht0 with
      | head =>
        rw [hu] at he0
        cases he0
      | tail _ hmem =>
        obtain ⟨e, he⟩ := ih ⟨max a.total_status r.status, a.total_score + r.score,
          a.total_time_usage_ns + r.time_usage_ns,
          max a.total_memory_usage_bytes r.memory_usage_bytes⟩ ⟨t0, hmem, e0, he0⟩
        exact ⟨e, by simp [judgeLoopAux, hu, he]⟩

/-- C10: `CustomJudgeCase.judge` returns a 5-tuple, which the 8-field
unpacking of `JudgeHandler.judge` rejects with a `ValueError`; so a
submission whose case list contains any custom-judge case ends through the
orchestrator's exception handler with a final
`end(status=STATUS_SYSTEM_ERROR, score=0)` event. -/
theorem C10_custom_case_aborts_submission :
    (∀ r : CustomResult, unpack8 (.custom5 r) =
      Except.error (.valueError "not enough values to unpack (expected 8, got 5)")) ∧
    ∀ (cs : List Case) (env : Case → TaskEnv),
      (∃ ce ∈ cs, ce.isCustomJudge = true) →
      do_record_end (cs.map fun ce => ce.runTask (env ce)) =
        ⟨STATUS_SYSTEM_ERROR, 0, 0, 0⟩ := by
  refine ⟨fun r => rfl, ?_⟩
  intro cs env h
  obtain ⟨ce, hmem, hcust⟩ := h
  have hbad : ∃ t ∈ cs.map (fun c => c.runTask (env c)), ∃ e, unpack8 t = .error e := by
    refine ⟨ce.runTask (env ce), List.mem_map_of_mem _ hmem, ?_⟩
    cases ce with
    | defaultCase oi oo t m sc ef ea idx => simp [Case.isCustomJudge] at hcust
    | customJudgeCase oi t m oj jl =>
      cases hj : CustomJudgeCase.judge ⟨oi, t, m, oj, jl⟩
          (env (.customJudgeCase oi t m oj jl)).build
          (env (.customJudgeCase oi t m oj jl)).crun with
      | ok res =>
        simp only [Case.runTask, hj]
        exact ⟨_, rfl⟩
      | error e =>
        simp only [Case.runTask, hj]
        exact ⟨e, rfl⟩
  obtain ⟨e, he⟩ := judgeLoopAux_error_of_mem _ ⟨STATUS_ACCEPTED, 0, 0, 0⟩ hbad
  unfold do_record_end JudgeHandler_judge
  rw [he]

/-- Witness for C10: a single custom-judge case (with a clean run whose
judge printed `ok`) forces the system-error end event. -/
theorem C10_custom_case_aborts_submission_witness :
    do_record_end ([Case.customJudgeCase "1.in" 1000000000 268435456 "judge.py" "py"].map
      (fun ce => ce.runTask exTaskEnv)) = ⟨STATUS_SYSTEM_ERROR, 0, 0, 0⟩ :=
  C10_custom_case_aborts_submission.2
    [Case.customJudgeCase "1.in" 1000000000 268435456 "judge.py" "py"] (fun _ => exTaskEnv)
    ⟨Case.customJudgeCase "1.in" 1000000000 268435456 "judge.py" "py", by simp, rfl⟩

end Jd4
